import Mathlib

/-!
Shallow embedding of the cava-grammar event-correlation engine
(`core/event_converter.py`, `core/grammar_classes.py`, `core/misc.py`,
`utils/hash_buffer.py`, `utils/grammar_event.py`).

Conventions of the embedding:
* Python dict payloads are modelled by a record `EventData` whose fields are
  `Option`-valued, mirroring `dict.get(key)` returning `None` for an absent key.
* Timestamps (Python floats) are modelled as rationals `ℚ`; every comparison the
  code performs on timestamps is an order comparison, which `ℚ` reproduces.
* Python runtime failures that are reachable in the modelled paths
  (`None >= int`, `None.get(...)`, `None + str`, `exit(1)` inside
  `Interaction.set_fragment`) are modelled by `Except PyErr`.
* In-place mutation of the `Consumed` flags of the buffered event dicts is
  modelled by returning an updated event list alongside each policy's result.
* The raw telemetry value (`"Event"` key, kept for audit only) is not modelled;
  no modelled computation reads it.
-/

/-- Python runtime failures reachable in the modelled code paths. -/
inductive PyErr where
  | typeError
  | attributeError
  | exitError
deriving Repr, DecidableEq

/-- Payload of one telemetry record (`Data` of a buffered event): a normalized
view of the category-specific dict.  Each field models `data.get("...")`, so an
absent key is `none`. -/
structure EventData where
  eventName : Option String := none
  key : Option String := none
  eventSource : Option String := none
  fieldText : Option String := none
  mouseButton : Option Int := none
  clickCount : Option Int := none
  isPopupTrigger : Option Bool := none
  programName : Option String := none
  scrollbarLocation : Option Int := none
  button : Option String := none
deriving Repr, DecidableEq

/-- One buffered record (`mod_event` built by `HashBuffer.add`): name, payload,
timestamp, content hash, and the mutable consumption flag. -/
structure Rec where
  name : String
  data : EventData
  timestamp : ℚ
  hash : String
  consumed : Bool := false
deriving Repr, DecidableEq

/-- `utils/hash_buffer.py`: the ordered event buffer.  `index_` starts as
`None` (here `none`) and is set to `0` by the first `add`. -/
structure HashBuffer where
  release_ : Bool := true
  events_ : List Rec := []
  index_ : Option Nat := none
deriving Repr, DecidableEq

/-- `HashBuffer.add`: appends the record; if this is the first record the
cursor is initialized to 0.  (The md5 fingerprint and payload extraction happen
upstream of the fields we model; the argument is the already-built record.) -/
def HashBuffer.add (b : HashBuffer) (e : Rec) : HashBuffer :=
  { b with
    events_ := b.events_ ++ [e]
    index_ := match b.index_ with
      | none => some 0
      | some i => some i }

/-- `HashBuffer.current`: `if self.index_ >= len(self.events_): return None`.
With `index_ = None` the Python comparison `None >= int` raises `TypeError`;
with a set cursor past the end it returns `None` (here `ok none`). -/
def HashBuffer.current (b : HashBuffer) : Except PyErr (Option Rec) :=
  match b.index_ with
  | none => .error .typeError
  | some i =>
    if i ≥ b.events_.length then .ok none
    else .ok (b.events_.get? i)

/-- `HashBuffer.has_next`. -/
def HashBuffer.hasNext (b : HashBuffer) : Bool :=
  match b.index_ with
  | none => false
  | some i => !(i ≥ b.events_.length)

/-- `HashBuffer.next`: advance the cursor by one unless exhausted. -/
def HashBuffer.next (b : HashBuffer) : HashBuffer :=
  if b.hasNext then
    { b with index_ := match b.index_ with
        | none => none
        | some i => some (i + 1) }
  else b

/-- `HashBuffer.purge`: returns `False` (failure, buffer untouched) when
`ending_index >= len(self.events_)`; otherwise keeps `events_[ending_index:]`
and resets the cursor to 0.  The `Bool` is the success flag. -/
def HashBuffer.purge (b : HashBuffer) (endingIndex : Nat) : Bool × HashBuffer :=
  if endingIndex ≥ b.events_.length then (false, b)
  else (true, { b with events_ := b.events_.drop endingIndex, index_ := some 0 })

/-- `core/grammar_classes.py` `Interaction`: the four sentence fragments; an
unset fragment is the empty string (each fragment class initializes to `""`). -/
structure Interaction where
  inputDevice : String := ""
  inputAction : String := ""
  toolContext : String := ""
  action : String := ""
deriving Repr, DecidableEq

/-- `Interaction.__str__`: `device : action`, then ` > context` when the
context is non-empty, then ` > effect` only when additionally the effect is
non-empty. -/
def Interaction.render (i : Interaction) : String :=
  let s := i.inputDevice ++ " : " ++ i.inputAction
  if i.toolContext ≠ "" then
    let s := s ++ " > " ++ i.toolContext
    if i.action ≠ "" then s ++ " > " ++ i.action else s
  else s

/-- `utils/grammar_event.py` `GrammarEvent`: one synthesized statement with its
inferred flag, provenance hash list and triggering timestamp.  (The
`source_event` raw value is audit-only and not modelled.) -/
structure GrammarEvent where
  sentence : Interaction
  inferred : Bool
  hashList : List String
  timestamp : ℚ
deriving Repr, DecidableEq

/-- `core/misc.py` `charMapping`: logical key → printable character. -/
def charMapping : String → Option String
  | "KEY_SPACE" => some " "
  | "KEY_APOSTROPHE" => some "\x27"
  | "KEY_EQUALS" => some "="
  | "KEY_COMMA" => some ","
  | "KEY_MINUS" => some "-"
  | "KEY_PERIOD" => some "."
  | "KEY_SLASH" => some "/"
  | "KEY_SEMICOLON" => some ";"
  | "KEY_LEFT_BRACKET" => some "["
  | "KEY_RIGHT_BRACKET" => some "]"
  | "KEY_BACKSLASH" => some "\\"
  | "KEY_GRAVE" => some "\x60"
  | "KEY_0" => some "0"
  | "KEY_1" => some "1"
  | "KEY_2" => some "2"
  | "KEY_3" => some "3"
  | "KEY_4" => some "4"
  | "KEY_5" => some "5"
  | "KEY_6" => some "6"
  | "KEY_7" => some "7"
  | "KEY_8" => some "8"
  | "KEY_9" => some "9"
  | "KEY_NUMPAD_0" => some "0"
  | "KEY_NUMPAD_1" => some "1"
  | "KEY_NUMPAD_2" => some "2"
  | "KEY_NUMPAD_3" => some "3"
  | "KEY_NUMPAD_4" => some "4"
  | "KEY_NUMPAD_5" => some "0"
  | "KEY_NUMPAD_6" => some "6"
  | "KEY_NUMPAD_7" => some "7"
  | "KEY_NUMPAD_8" => some "8"
  | "KEY_NUMPAD_9" => some "9"
  | "KEY_A" => some "a"
  | "KEY_B" => some "b"
  | "KEY_C" => some "c"
  | "KEY_D" => some "d"
  | "KEY_E" => some "e"
  | "KEY_F" => some "f"
  | "KEY_G" => some "g"
  | "KEY_H" => some "h"
  | "KEY_I" => some "i"
  | "KEY_J" => some "j"
  | "KEY_K" => some "k"
  | "KEY_L" => some "l"
  | "KEY_M" => some "m"
  | "KEY_N" => some "n"
  | "KEY_O" => some "o"
  | "KEY_P" => some "p"
  | "KEY_Q" => some "q"
  | "KEY_R" => some "r"
  | "KEY_S" => some "s"
  | "KEY_T" => some "t"
  | "KEY_U" => some "u"
  | "KEY_V" => some "v"
  | "KEY_W" => some "w"
  | "KEY_X" => some "x"
  | "KEY_Y" => some "y"
  | "KEY_Z" => some "z"
  | _ => none

/-- `core/misc.py` `internal_plugin_to_grammar`: plugin identifier → grammar
display name. -/
def internal_plugin_to_grammar : String → Option String
  | "CavaCodeBrowserPlugin" => some "CodeBrowser : ListingView"
  | "CavaDecompilePlugin" => some "Decompiler"
  | "CavaFunctionGraphPlugin_ListingPanel" => some "FunctionGraph"
  | "CavaTaskSequencingPanel_TaskInstructionsTextPane" => some "TaskInstructions"
  | "CavaTaskSequencingPanel_ActionButton" => some "TaskInstructions : Button(OK)"
  | "CavaTaskSequencingPanel" => some "TaskInstructions"
  | "CavaTaskSequencingPanel_TaskResultTextPane" => some "TaskInstructions"
  | "TaskSurvey_q1r1" => some "TaskSurveyRadioButton"
  | "TaskSurvey_q1r2" => some "TaskSurveyRadioButton"
  | "TaskSurvey_q1r3" => some "TaskSurveyRadioButton"
  | "TaskSurvey_q1r4" => some "TaskSurveyRadioButton"
  | "TaskSurvey_q1r5" => some "TaskSurveyRadioButton"
  | "TaskSurvey_q1r6" => some "TaskSurveyRadioButton"
  | "TaskSurvey_q1r7" => some "TaskSurveyRadioButton"
  | "TaskSurvey_q2r1" => some "TaskSurveyRadioButton"
  | "TaskSurvey_q2r2" => some "TaskSurveyRadioButton"
  | "TaskSurvey_q2r3" => some "TaskSurveyRadioButton"
  | "TaskSurvey_q2r4" => some "TaskSurveyRadioButton"
  | "TaskSurvey_q2r5" => some "TaskSurveyRadioButton"
  | "TaskSurvey_q2r6" => some "TaskSurveyRadioButton"
  | "TaskSurvey_q2r7" => some "TaskSurveyRadioButton"
  | "TaskSurvey_q3r1" => some "TaskSurveyRadioButton"
  | "TaskSurvey_q3r2" => some "TaskSurveyRadioButton"
  | "TaskSurvey_q3r3" => some "TaskSurveyRadioButton"
  | "TaskSurvey_q3r4" => some "TaskSurveyRadioButton"
  | "TaskSurvey_q3r5" => some "TaskSurveyRadioButton"
  | "TaskSurvey_q3r6" => some "TaskSurveyRadioButton"
  | "TaskSurvey_q3r7" => some "TaskSurveyRadioButton"
  | "TaskSurvey_q3Comment" => some "TaskSurveyCommentWindow"
  | "TaskSurvey_SubmitResponses" => some "TaskSurveySubmitButton"
  | "CavaFunctionGraphPlugin" => some "FunctionGraph"
  | "CavaFunctionGraphPlugin_SatelliteGraphViewer" => some "FunctionGraphSatelliteWindow"
  | _ => none

/-- `dict.get` applied to a possibly-`None` key, as in
`internal_plugin_to_grammar.get(plugin_name)` where `plugin_name` itself came
from a `.get`. -/
def pluginLookup (o : Option String) : Option String :=
  o.bind internal_plugin_to_grammar

/-- Records of `events` paired with their buffer indices, starting at index
`i` — the shape in which the policies' `for i in range(index+1, len(...))`
loops visit the buffer. -/
def enumFrom : Nat → List Rec → List (Nat × Rec)
  | _, [] => []
  | i, e :: rest => (i, e) :: enumFrom (i + 1) rest

/-- `event["Consumed"] = True`. -/
def markConsumed (e : Rec) : Rec := { e with consumed := true }

def consumeAtAux : List Rec → List Nat → Nat → List Rec
  | [], _, _ => []
  | e :: rest, idxs, i =>
    (if i ∈ idxs then markConsumed e else e) :: consumeAtAux rest idxs (i + 1)

/-- Mark the records at the listed buffer indices consumed (the functional
image of the in-place `event["Consumed"] = True` mutations of a policy). -/
def consumeAt (events : List Rec) (idxs : List Nat) : List Rec :=
  consumeAtAux events idxs 0

/-- The scan loop of `KeyboardEvent.get_all_typing_events`: visit the buffer
after the cursor; a key-down within .91s of the last accepted key is collected
and becomes the new reference; a key-down at ≥ .91s breaks; key-releases and
records of any other category are passed over without stopping. -/
def typingLoop : List (Nat × Rec) → ℚ → List (Nat × Rec)
  | [], _ => []
  | (i, e) :: rest, lastTime =>
    if e.name = "KeyboardEvent" then
      if e.data.eventName = some "DOWN" then
        if e.timestamp - lastTime < 91/100 then
          (i, e) :: typingLoop rest e.timestamp
        else []
      else typingLoop rest lastTime
    else typingLoop rest lastTime

/-- `KeyboardEvent.get_all_typing_events` (returning the collected records
together with their buffer indices). -/
def getAllTypingEvents (events : List Rec) (index : Nat) : List (Nat × Rec) :=
  match events.get? index with
  | none => []
  | some current =>
    typingLoop (enumFrom (index + 1) (events.drop (index + 1))) current.timestamp

def createTypingStringAux : List Rec → String → List String → String × List String
  | [], s, hs => (s, hs)
  | e :: rest, s, hs =>
    let hs := hs ++ [e.hash]
    if e.data.key = some "KEY_BACKSPACE" ∨ e.data.key = some "KEY_DELETE" then
      createTypingStringAux rest (s.dropRight 1) hs
    else
      match e.data.key.bind charMapping with
      | none => createTypingStringAux rest s hs
      | some c => createTypingStringAux rest (s ++ c) hs

/-- `KeyboardEvent.create_typing_string`: replay the run left to right;
backspace/delete drops the last accumulated character, an unmapped key is
skipped, a mapped key appends its character.  Every record of the run
contributes its hash.  (The in-place consumption marking the Python loop also
performs is modelled by `consumeAt` at the call site.) -/
def createTypingString (typed : List Rec) : String × List String :=
  createTypingStringAux typed "" []

/-- `KeyboardEvent.parse_event`. -/
def keyboardParse (b : HashBuffer) : Except PyErr (Option (List GrammarEvent) × HashBuffer) :=
  match b.index_ with
  | none => .error .typeError
  | some index =>
    match b.events_.get? index with
    | none => .error .attributeError
    | some event =>
      if event.consumed then .ok (none, b)
      else if event.data.eventName = some "UP" then .ok (none, b)
      else
        match getAllTypingEvents b.events_ index with
        | [] => .ok (none, b)
        | typed =>
          let run := (index, event) :: typed
          let ts := createTypingString (run.map Prod.snd)
          let sentence : Interaction :=
            { inputDevice := "Keyboard", inputAction := ts.1 }
          let ge : GrammarEvent :=
            { sentence := sentence, inferred := false, hashList := ts.2,
              timestamp := event.timestamp }
          .ok (some [ge], { b with events_ := consumeAt b.events_ (run.map Prod.fst) })

/-- The loop of `VerticalScrollbarAdjustmentEvent.consume_scroll_events`:
a same-source scrollbar record within 5s of the last accepted one is consumed
and becomes the new reference; a same-source one at ≥ 5s ends the scan; other
records are passed over. -/
def scrollLoop : List (Nat × Rec) → Rec → List (Nat × Rec) → Rec × List (Nat × Rec)
  | [], last, acc => (last, acc)
  | (i, e) :: rest, last, acc =>
    if e.name = "VerticalScrollbarAdjustmentEvent" then
      if e.data.eventSource = last.data.eventSource then
        if e.timestamp - last.timestamp < 5 then
          scrollLoop rest e (acc ++ [(i, e)])
        else (last, acc)
      else scrollLoop rest last acc
    else scrollLoop rest last acc

/-- `VerticalScrollbarAdjustmentEvent.consume_scroll_events`: the last accepted
scroll record together with the accepted follow-ups (with their indices; the
trigger itself is not part of the returned list). -/
def consumeScrollEvents (events : List Rec) (index : Nat) (current : Rec) :
    Rec × List (Nat × Rec) :=
  scrollLoop (enumFrom (index + 1) (events.drop (index + 1))) current []

/-- `str(...)` applied to `data.get("ScrollbarLocation")`. -/
def strOfOptInt : Option Int → String
  | none => "None"
  | some n => toString n

/-- `VerticalScrollbarAdjustmentEvent.generate_inferred_statements`: the four
inferred alternatives, in the order the Python return statement lists them. -/
def generateInferredScrollStatements (event : Rec) (toolContext toolAction : String)
    (hashList : List String) : List GrammarEvent :=
  let mk (act : String) : GrammarEvent :=
    { sentence := { inputDevice := "Mouse", inputAction := act,
                    toolContext := toolContext, action := toolAction },
      inferred := true, hashList := hashList, timestamp := event.timestamp }
  [mk "Left Click", mk "MouseWheel Up", mk "MouseWheel Down", mk "Drag"]

/-- `VerticalScrollbarAdjustmentEvent.parse_event`.  The follow-up records are
consumed by the scan before the size check, so they stay consumed even when the
run is discarded; the plugin lookup (`None + str` on an unmapped source) only
happens past that check. -/
def vsbParse (b : HashBuffer) : Except PyErr (Option (List GrammarEvent) × HashBuffer) :=
  match b.index_ with
  | none => .error .typeError
  | some index =>
    match b.events_.get? index with
    | none => .error .attributeError
    | some event =>
      if event.consumed then .ok (none, b)
      else
        let scan := consumeScrollEvents b.events_ index event
        let hashes := scan.2.map (fun p => p.2.hash)
        let b' := { b with events_ := consumeAt b.events_ (scan.2.map Prod.fst) }
        if hashes.length < 2 then .ok (none, b')
        else
          match pluginLookup event.data.eventSource with
          | none => .error .typeError
          | some plug =>
            let hashList := event.hash :: hashes
            let toolContext := plug ++ " : " ++ "ScrollbarLocation" ++ "[" ++
              strOfOptInt event.data.scrollbarLocation ++ "]"
            let toolAction := plug ++ " : " ++ ("ScrollbarLocation" ++ "[" ++
              strOfOptInt scan.1.data.scrollbarLocation ++ "]")
            .ok (some (generateInferredScrollStatements event toolContext toolAction hashList), b')

/-- Forward half of `load_field_location_events`: collect FieldLocationEvents
after the cursor, stopping at the first other record more than 1.5s ahead. -/
def fleForward : List Rec → ℚ → List Rec
  | [], _ => []
  | e :: rest, t0 =>
    if e.name = "FieldLocationEvent" then e :: fleForward rest t0
    else if e.timestamp - t0 > 3/2 then []
    else fleForward rest t0

/-- Backward half of `load_field_location_events`, on the reversed prefix (the
`reversed(range(index))` visit order), collecting in visit order. -/
def fleBackwardVisit : List Rec → ℚ → List Rec
  | [], _ => []
  | e :: rest, t0 =>
    if e.name = "FieldLocationEvent" then e :: fleBackwardVisit rest t0
    else if t0 - e.timestamp > 3/2 then []
    else fleBackwardVisit rest t0

/-- `load_field_location_events`: backward-collected records (in increasing
index order, matching the repeated `insert(0, ...)`) followed by the
forward-collected ones. -/
def loadFieldLocationEvents (events : List Rec) (index : Nat) (current : Rec) : List Rec :=
  (fleBackwardVisit ((events.take index).reverse) current.timestamp).reverse ++
    fleForward (events.drop (index + 1)) current.timestamp

/-- `get_field_from_plugin`: field text and hash of the first loaded
FieldLocationEvent whose source matches; `("*(unknown)", "")` when none does.
The field text is `Option`-valued because the payload key may be absent. -/
def getFieldFromPlugin : List Rec → Option String → Option String × String
  | [], _ => (some "*(unknown)", "")
  | e :: rest, plugin =>
    if e.data.eventSource = plugin then (e.data.fieldText, e.hash)
    else getFieldFromPlugin rest plugin

/-- `MousePressedEvent.generate_inferred_right_click_events`: the two inferred
follow-ups (set-comment, then relabel) of a popup-triggering right click, both
carrying only the trigger's hash as provenance. -/
def generateInferredRightClickEvents (event : Rec) (field plug : String) : List GrammarEvent :=
  let hashList := [event.hash]
  let comment : Interaction :=
    { inputDevice := "Mouse", inputAction := "Left Click",
      toolContext := plug ++ " : Field(" ++ field ++ ") : " ++ "Context Menu" ++ " : " ++
        "Set Comment...",
      action := "Open(CommentPlugin)" }
  let relabel : Interaction :=
    { inputDevice := "Mouse", inputAction := "Left Click",
      toolContext := plug ++ " : Field(" ++ field ++ ") : " ++ "Context Menu" ++ " : " ++
        "relabel",
      action := "Open(RelabelPlugin)" }
  [ { sentence := comment, inferred := true, hashList := hashList, timestamp := event.timestamp },
    { sentence := relabel, inferred := true, hashList := hashList, timestamp := event.timestamp } ]

/-- `MousePressedEvent.parse_event`.  Button 1 is Left, 2 Middle, anything else
Right; a popup-triggering right click resolves the clicked field from the
surrounding FieldLocationEvents, builds context/action fragments and the two
inferred statements.  An unmapped plugin in the popup branch or an absent
field text is a `TypeError` (`None + str`); outside the popup branch an
unmapped plugin leaves `tool_context = None` and `set_fragment` exits. -/
def mousePressedParse (b : HashBuffer) : Except PyErr (Option (List GrammarEvent) × HashBuffer) :=
  match b.index_ with
  | none => .error .typeError
  | some index =>
    match b.events_.get? index with
    | none => .error .attributeError
    | some event =>
      let d := event.data
      let branch : Except PyErr (String × String × String × String × List GrammarEvent) :=
        if d.mouseButton = some 1 then .ok ("Left", "", "", "", [])
        else if d.mouseButton = some 2 then .ok ("Middle", "", "", "", [])
        else if d.isPopupTrigger = some true then
          let fieldEvents := loadFieldLocationEvents b.events_ index event
          let fh := getFieldFromPlugin fieldEvents d.eventSource
          match pluginLookup d.eventSource, fh.1 with
          | some plug, some field =>
            .ok ("Right",
                 plug ++ " : Field(" ++ field ++ ")",
                 plug ++ " : Field(" ++ field ++ ") : " ++ "Context Menu",
                 fh.2,
                 generateInferredRightClickEvents event field plug)
          | _, _ => .error .typeError
        else .ok ("Right", "", "", "", [])
      match branch with
      | .error e => .error e
      | .ok (mouseButton, toolContext0, toolAction, hashFromField, inferredTail) =>
        let mouseAction :=
          if d.clickCount = some 1 then "Click"
          else if d.clickCount = some 2 then "DoubleClick"
          else "MultipleClicks"
        let toolContextOpt : Option String :=
          if toolContext0 = "" then pluginLookup d.eventSource else some toolContext0
        match toolContextOpt with
        | none => .error .exitError
        | some toolContext =>
          let hashList :=
            if toolAction ≠ "" then [event.hash, hashFromField] else [event.hash]
          let sentence : Interaction :=
            { inputDevice := "Mouse", inputAction := mouseButton ++ " " ++ mouseAction,
              toolContext := toolContext, action := toolAction }
          let core : GrammarEvent :=
            { sentence := sentence, inferred := false, hashList := hashList,
              timestamp := event.timestamp }
          .ok (some (core :: inferredTail), b)

/-- Python `str.lower`. -/
def pyLower (s : String) : String := String.mk (s.data.map Char.toLower)

/-- Python `str.capitalize`: first character uppercased, the rest lowercased. -/
def pyCapitalize (s : String) : String :=
  match s.data with
  | [] => ""
  | c :: cs => String.mk (c.toUpper :: cs.map Char.toLower)

/-- The backward loop of `get_input_fragments`, on the reversed prefix before
the cursor: the first MouseEvent more than 1s older ends the search empty; a
CLICK MouseEvent within 1s is returned (its absent `Button` would be
`None.lower()`); anything else is passed over. -/
def inputFragLoop : List Rec → ℚ → Except PyErr (Option (String × String × List String))
  | [], _ => .ok none
  | e :: rest, src =>
    if e.name = "MouseEvent" then
      if src - e.timestamp > 1 then .ok none
      else if e.data.eventName = some "CLICK" then
        match e.data.button with
        | none => .error .attributeError
        | some bs => .ok (some ("Mouse", pyCapitalize (pyLower bs), [e.hash]))
      else inputFragLoop rest src
    else inputFragLoop rest src

/-- `get_input_fragments`. -/
def getInputFragments (events : List Rec) (index : Nat) (src : ℚ) :
    Except PyErr (Option (String × String × List String)) :=
  inputFragLoop ((events.take index).reverse) src

/-- `GhidraProgramActivatedEvent.inferred_program_activated_events`: the two
inferred alternatives (left click, then middle click), sharing the trigger's
hash as provenance. -/
def inferredProgramActivatedEvents (event : Rec) (programName : String) : List GrammarEvent :=
  let toolContext :=
    "CodeBrowser" ++ " : " ++ " ProgramTab(" ++ "\"" ++ programName ++ "\"" ++ ")"
  let toolAction := "Ghidra load \"" ++ programName ++ "\""
  let hashList := [event.hash]
  let leftI : Interaction :=
    { inputDevice := "Mouse", inputAction := "Left Click",
      toolContext := toolContext, action := toolAction }
  let midI : Interaction :=
    { inputDevice := "Mouse", inputAction := "Middle Click",
      toolContext := toolContext, action := toolAction }
  [ { sentence := leftI, inferred := true, hashList := hashList, timestamp := event.timestamp },
    { sentence := midI, inferred := true, hashList := hashList, timestamp := event.timestamp } ]

/-- `GhidraProgramActivatedEvent.parse_event`. -/
def gpaParse (b : HashBuffer) : Except PyErr (Option (List GrammarEvent) × HashBuffer) :=
  match b.index_ with
  | none => .error .typeError
  | some index =>
    match b.events_.get? index with
    | none => .error .attributeError
    | some event =>
      match event.data.programName with
      | none => .ok (none, b)
      | some programName =>
        match getInputFragments b.events_ index event.timestamp with
        | .error e => .error e
        | .ok none => .ok (some (inferredProgramActivatedEvents event programName), b)
        | .ok (some frags) =>
          let toolContext :=
            "CodeBrowser" ++ " : " ++ " ProgramTab(" ++ "\"" ++ programName ++ "\"" ++ ")"
          let toolAction := "Ghidra load \"" ++ programName ++ "\""
          let sentence : Interaction :=
            { inputDevice := frags.1, inputAction := frags.2.1,
              toolContext := toolContext, action := toolAction }
          let ge : GrammarEvent :=
            { sentence := sentence, inferred := false,
              hashList := event.hash :: frags.2.2, timestamp := event.timestamp }
          .ok (some [ge], b)

instance {ε α : Type} [DecidableEq ε] [DecidableEq α] : DecidableEq (Except ε α)
  | .error x, .error y => decidable_of_iff (x = y) (by simp)
  | .error _, .ok _ => isFalse (by simp)
  | .ok _, .error _ => isFalse (by simp)
  | .ok x, .ok y => decidable_of_iff (x = y) (by simp)

/-- One pass of `create_typing_string` for a single key, as a step function:
backspace/delete drops the last accumulated character, an unmapped key leaves
the string unchanged, a mapped key appends its character. -/
def typedStringStep (s : String) (key : Option String) : String :=
  if key = some "KEY_BACKSPACE" ∨ key = some "KEY_DELETE" then s.dropRight 1
  else
    match key.bind charMapping with
    | none => s
    | some c => s ++ c

/-- Whether an indexed record is a key-down KeyboardEvent. -/
def isKeyDown (p : Nat × Rec) : Bool :=
  p.2.name = "KeyboardEvent" && p.2.data.eventName = some "DOWN"

/-- The maximal prefix of a (key-down) record sequence in which every record is
within .91s of the previously accepted one. -/
def gapChain : List (Nat × Rec) → ℚ → List (Nat × Rec)
  | [], _ => []
  | (i, e) :: rest, t =>
    if e.timestamp - t < 91/100 then (i, e) :: gapChain rest e.timestamp else []

/-- Modelled from the spec sentence for the key-entry scan: identical to
`typingLoop` except that it stops at the first record of a non-KeyboardEvent
category ("stop ... at the first non-matching category") instead of passing
over it.  Kept for comparison with the source's `typingLoop`. -/
def specTypingLoop : List (Nat × Rec) → ℚ → List (Nat × Rec)
  | [], _ => []
  | (i, e) :: rest, lastTime =>
    if e.name = "KeyboardEvent" then
      if e.data.eventName = some "DOWN" then
        if e.timestamp - lastTime < 91/100 then
          (i, e) :: specTypingLoop rest e.timestamp
        else []
      else specTypingLoop rest lastTime
    else []

/-- `get_all_typing_events` as the spec sentence describes it (via
`specTypingLoop`). -/
def specGetAllTypingEvents (events : List Rec) (index : Nat) : List (Nat × Rec) :=
  match events.get? index with
  | none => []
  | some current =>
    specTypingLoop (enumFrom (index + 1) (events.drop (index + 1))) current.timestamp

/-- Provenance hash lists of the statements of a successful parse result. -/
def hashListsOf (r : Except PyErr (Option (List GrammarEvent) × HashBuffer)) :
    Option (List (List String)) :=
  match r with
  | .ok (some gs, _) => some (gs.map GrammarEvent.hashList)
  | _ => none

/-- A key-down KeyboardEvent record. -/
def kbRec (t : ℚ) (key : String) (h : String) : Rec :=
  { name := "KeyboardEvent", data := { eventName := some "DOWN", key := some key },
    timestamp := t, hash := h }

/-- A MOVE MouseEvent record. -/
def mouseMoveRec (t : ℚ) (h : String) : Rec :=
  { name := "MouseEvent", data := { eventName := some "MOVE", button := some "LEFT" },
    timestamp := t, hash := h }

/-- A CLICK MouseEvent record. -/
def mouseClickRec (t : ℚ) (h : String) : Rec :=
  { name := "MouseEvent", data := { eventName := some "CLICK", button := some "LEFT" },
    timestamp := t, hash := h }

/-- A record of an uncorrelated category. -/
def plainRec (t : ℚ) (h : String) : Rec :=
  { name := "HeaderEvent", data := {}, timestamp := t, hash := h }

/-- A VerticalScrollbarAdjustmentEvent record. -/
def vsRec (t : ℚ) (src : String) (loc : Int) (h : String) : Rec :=
  { name := "VerticalScrollbarAdjustmentEvent",
    data := { eventSource := some src, scrollbarLocation := some loc },
    timestamp := t, hash := h }

/-- A right-button popup-triggering MousePressedEvent record. -/
def mpRec (t : ℚ) (h : String) : Rec :=
  { name := "MousePressedEvent",
    data := { mouseButton := some 3, clickCount := some 1, isPopupTrigger := some true,
              eventSource := some "CavaDecompilePlugin" },
    timestamp := t, hash := h }

/-- A GhidraProgramActivatedEvent record. -/
def gpaRec (t : ℚ) (pn : String) (h : String) : Rec :=
  { name := "GhidraProgramActivatedEvent", data := { programName := some pn },
    timestamp := t, hash := h }

/-- Key-down, then a MouseEvent, then another key-down, all at t = 0. -/
def exC1 : HashBuffer :=
  { events_ := [kbRec 0 "KEY_A" "ha", mouseMoveRec 0 "hm", kbRec 0 "KEY_B" "hb"],
    index_ := some 0 }

/-- A single unconsumed key-down with a printable mapping. -/
def exC2 : HashBuffer := { events_ := [kbRec 0 "KEY_A" "ha"], index_ := some 0 }

/-- The keys a, BACKSPACE, b in one typing run. -/
def exC7 : HashBuffer :=
  { events_ := [kbRec 0 "KEY_A" "ha", kbRec 0 "KEY_BACKSPACE" "hx", kbRec 0 "KEY_B" "hb"],
    index_ := some 0 }

/-- Two key-downs in one typing run. -/
def exK2 : HashBuffer :=
  { events_ := [kbRec 0 "KEY_A" "ha", kbRec 0 "KEY_B" "hb"], index_ := some 0 }

/-- A run of exactly 2 qualifying same-source scrollbar records (gap 1s < 5s). -/
def exC3 : HashBuffer :=
  { events_ := [vsRec 0 "CavaDecompilePlugin" 10 "h0", vsRec 1 "CavaDecompilePlugin" 20 "h1"],
    index_ := some 0 }

/-- A run of 3 qualifying same-source scrollbar records. -/
def exC3w : HashBuffer :=
  { events_ := [vsRec 0 "CavaDecompilePlugin" 10 "h0", vsRec 1 "CavaDecompilePlugin" 20 "h1",
                vsRec 2 "CavaDecompilePlugin" 30 "h2"],
    index_ := some 0 }

/-- A single popup-triggering right-button MousePressedEvent. -/
def exC4 : HashBuffer := { events_ := [mpRec 0 "h1"], index_ := some 0 }

/-- A pointer click 1s before a program activation. -/
def exC5a : HashBuffer :=
  { events_ := [mouseClickRec 0 "hc", gpaRec 1 "prog" "hp"], index_ := some 1 }

/-- A pointer click 2s before a program activation (outside the 1s window). -/
def exC5b : HashBuffer :=
  { events_ := [mouseClickRec 0 "hc", gpaRec 2 "prog" "hp"], index_ := some 1 }

/-- A two-record buffer for the purge contract. -/
def exC9 : HashBuffer :=
  { events_ := [plainRec 0 "h1", plainRec 1 "h2"], index_ := some 0 }

/-- The buffer indices of a typing run: the trigger followed by the collected
follow-ups. -/
def runIndices (events : List Rec) (index : Nat) (event : Rec) : List Nat :=
  ((index, event) :: getAllTypingEvents events index).map Prod.fst

theorem consumeAtAux_get? (idxs : List Nat) (evs : List Rec) :
    ∀ (i k : Nat),
      (consumeAtAux evs idxs i).get? k =
        (evs.get? k).map (fun e => if (i + k) ∈ idxs then markConsumed e else e) := by
  induction evs with
  | nil => intro i k; simp [consumeAtAux]
  | cons e rest ih =>
    intro i k
    cases k with
    | zero => simp [consumeAtAux]
    | succ k =>
      have harith : i + (k + 1) = (i + 1) + k := by omega
      simp only [consumeAtAux, List.get?, harith, ih (i + 1) k]

theorem consumeAt_get? (evs : List Rec) (idxs : List Nat) (k : Nat) :
    (consumeAt evs idxs).get? k =
      (evs.get? k).map (fun e => if k ∈ idxs then markConsumed e else e) := by
  simpa using consumeAtAux_get? idxs evs 0 k

theorem enumFrom_mem {p : Nat × Rec} :
    ∀ {i : Nat} {l : List Rec}, p ∈ enumFrom i l → i ≤ p.1 ∧ p.1 < i + l.length := by
  intro i l
  induction l generalizing i with
  | nil => intro h; simp [enumFrom] at h
  | cons e rest ih =>
    intro h
    rw [enumFrom, List.mem_cons] at h
    rcases h with h1 | h2
    · subst h1; simp
    · have := ih h2; simp only [List.length_cons]; omega

theorem typingLoop_mem {p : Nat × Rec} :
    ∀ {l : List (Nat × Rec)} {t : ℚ}, p ∈ typingLoop l t → p ∈ l := by
  intro l
  induction l with
  | nil => intro t h; simp [typingLoop] at h
  | cons q rest ih =>
    obtain ⟨i, e⟩ := q
    intro t h
    rw [typingLoop] at h
    split_ifs at h with h1 h2 h3
    · rcases List.mem_cons.mp h with h4 | h4
      · exact h4 ▸ List.mem_cons_self _ _
      · exact List.mem_cons_of_mem _ (ih h4)
    · simp at h
    · exact List.mem_cons_of_mem _ (ih h)
    · exact List.mem_cons_of_mem _ (ih h)

/-- C6: `Interaction.render` produces `device : action` when the context
fragment is empty (the effect fragment is never rendered in that case even if
set); `device : action > context` when the context is non-empty and the effect
is empty; and `device : action > context > effect` when both are non-empty. -/
theorem C6_render_cases (i : Interaction) :
    (i.toolContext = "" → i.render = i.inputDevice ++ " : " ++ i.inputAction) ∧
    (i.toolContext ≠ "" → i.action = "" →
      i.render = (i.inputDevice ++ " : " ++ i.inputAction) ++ " > " ++ i.toolContext) ∧
    (i.toolContext ≠ "" → i.action ≠ "" →
      i.render = ((i.inputDevice ++ " : " ++ i.inputAction) ++ " > " ++ i.toolContext)
        ++ " > " ++ i.action) := by
  unfold Interaction.render
  refine ⟨fun h => ?_, fun h h2 => ?_, fun h h2 => ?_⟩
  · simp [h]
  · simp [h, h2]
  · simp [h, h2]

/-- Witness for C6 at concrete interactions, one per case. -/
theorem C6_render_cases_witness :
    Interaction.render ⟨"Mouse", "Move", "", "X"⟩ = "Mouse : Move" ∧
    Interaction.render ⟨"Mouse", "Move", "Decompiler", ""⟩ = "Mouse : Move > Decompiler" ∧
    Interaction.render ⟨"Mouse", "Move", "Decompiler", "Act"⟩ =
      "Mouse : Move > Decompiler > Act" := by
  refine ⟨?_, ?_, ?_⟩
  · exact ((C6_render_cases _).1 rfl).trans (by decide)
  · exact ((C6_render_cases _).2.1 (by decide) rfl).trans (by decide)
  · exact ((C6_render_cases _).2.2 (by decide) (by decide)).trans (by decide)

/-- C9: `purge uptoIndex` fails (returning the failure flag, buffer unchanged)
when `uptoIndex ≥ length`; otherwise it removes exactly the records with index
below `uptoIndex` (record `j` of the new buffer is record `uptoIndex + j` of
the old), resets the cursor to 0, and never leaves the buffer empty. -/
theorem C9_purge_contract (b : HashBuffer) (uptoIndex : Nat) :
    (uptoIndex ≥ b.events_.length → b.purge uptoIndex = (false, b)) ∧
    (uptoIndex < b.events_.length →
      (b.purge uptoIndex).1 = true ∧
      (b.purge uptoIndex).2.events_ = b.events_.drop uptoIndex ∧
      (∀ j, (b.purge uptoIndex).2.events_.get? j = b.events_.get? (uptoIndex + j)) ∧
      (b.purge uptoIndex).2.index_ = some 0 ∧
      (b.purge uptoIndex).2.events_ ≠ []) := by
  constructor
  · intro h
    simp [HashBuffer.purge, h]
  · intro h
    have hn : ¬ (uptoIndex ≥ b.events_.length) := by omega
    refine ⟨by simp [HashBuffer.purge, hn], by simp [HashBuffer.purge, hn], ?_, ?_, ?_⟩
    · intro j
      simp [HashBuffer.purge, hn, List.get?_drop]
    · simp [HashBuffer.purge, hn]
    · simp only [HashBuffer.purge, hn, if_false, ite_false]
      rw [← List.length_pos]
      simp only [List.length_drop]
      omega

/-- Witness for C9: both branches at a concrete two-record buffer. -/
theorem C9_purge_contract_witness :
    exC9.purge 2 = (false, exC9) ∧
    (exC9.purge 1).2.events_ = [plainRec 1 "h2"] ∧
    (exC9.purge 1).2.index_ = some 0 ∧
    (exC9.purge 1).2.events_ ≠ [] := by
  refine ⟨(C9_purge_contract exC9 2).1 (by decide), ?_, ?_, ?_⟩
  · exact ((C9_purge_contract exC9 1).2 (by decide)).2.1.trans (by decide)
  · exact ((C9_purge_contract exC9 1).2 (by decide)).2.2.2.1
  · exact ((C9_purge_contract exC9 1).2 (by decide)).2.2.2.2

/-- C10: `current()` on a buffer whose cursor was never set (no record ever
added) raises a TypeError from comparing the unset cursor with the length,
instead of returning the no-current-record signal; an `add` always sets the
cursor, and once the cursor is set, `current()` returns the no-record signal
exactly when the cursor is at or past the end. -/
theorem C10_current_unset_cursor (b : HashBuffer) :
    (∀ r : Bool, (HashBuffer.mk r [] none).current = .error .typeError) ∧
    (∀ e : Rec, ((b.add e).index_).isSome = true) ∧
    (∀ i, b.index_ = some i → (b.current = .ok none ↔ i ≥ b.events_.length)) := by
  refine ⟨fun r => rfl, fun e => ?_, fun i hi => ?_⟩
  · rw [HashBuffer.add]
    cases b.index_ <;> simp
  · rw [HashBuffer.current, hi]
    by_cases h : i ≥ b.events_.length
    · simp [h]
    · simp only [h, if_false, ite_false]
      have hlt : i < b.events_.length := by omega
      constructor
      · intro hc
        have : b.events_.get? i = none := by
          injection hc
        rw [List.get?_eq_none] at this
        omega
      · intro hc
        exact hc.elim

/-- Witness for C10 at a one-record buffer with the cursor at 0 and past the
end. -/
theorem C10_current_unset_cursor_witness :
    (HashBuffer.mk true [] none).current = .error .typeError ∧
    ((HashBuffer.mk true [plainRec 0 "h1"] (some 0)).current = .ok none ↔ (0 : Nat) ≥ 1) ∧
    ((HashBuffer.mk true [plainRec 0 "h1"] (some 1)).current = .ok none ↔ (1 : Nat) ≥ 1) := by
  refine ⟨(C10_current_unset_cursor (HashBuffer.mk true [] none)).1 true, ?_, ?_⟩
  · exact (C10_current_unset_cursor _).2.2 0 rfl
  · exact (C10_current_unset_cursor _).2.2 1 rfl

theorem createTypingStringAux_eq (typed : List Rec) :
    ∀ (s : String) (hs : List String),
      createTypingStringAux typed s hs =
        (typed.foldl (fun acc e => typedStringStep acc e.data.key) s,
         hs ++ typed.map Rec.hash) := by
  induction typed with
  | nil => intro s hs; simp [createTypingStringAux]
  | cons e rest ih =>
    intro s hs
    rw [createTypingStringAux]
    split_ifs with hk
    · have hstep : typedStringStep s e.data.key = s.dropRight 1 := by
        simp [typedStringStep, hk]
      simp [hstep, ih]
    · cases hc : e.data.key.bind charMapping with
      | none =>
        have hstep : typedStringStep s e.data.key = s := by
          simp [typedStringStep, hk, hc]
        simp [hstep, ih]
      | some c =>
        have hstep : typedStringStep s e.data.key = s ++ c := by
          simp [typedStringStep, hk, hc]
        simp [hstep, ih]

/-- C7: the typed string of a key-entry run is built left to right: a
backspace/delete removes the last accumulated character (a no-op on the empty
string), unmapped keys are skipped, mapped keys append their character; in
particular the run a, BACKSPACE, b renders to "b", and the key-entry policy on
that run emits one statement whose action fragment is "b". -/
theorem C7_backspace_rendering :
    (∀ typed : List Rec, createTypingString typed =
      (typed.foldl (fun acc e => typedStringStep acc e.data.key) "",
       typed.map Rec.hash)) ∧
    (∀ s : String, typedStringStep s (some "KEY_BACKSPACE") = s.dropRight 1) ∧
    typedStringStep "" (some "KEY_BACKSPACE") = "" ∧
    (createTypingString [kbRec 0 "KEY_A" "ha", kbRec 0 "KEY_BACKSPACE" "hx",
      kbRec 0 "KEY_B" "hb"]).1 = "b" ∧
    (keyboardParse exC7 =
      .ok (some [{ sentence := { inputDevice := "Keyboard", inputAction := "b" },
                   inferred := false, hashList := ["ha", "hx", "hb"], timestamp := 0 }],
           { exC7 with events_ := [markConsumed (kbRec 0 "KEY_A" "ha"),
                                   markConsumed (kbRec 0 "KEY_BACKSPACE" "hx"),
                                   markConsumed (kbRec 0 "KEY_B" "hb")] })) := by
  refine ⟨fun typed => ?_, fun s => ?_, ?_, ?_, ?_⟩
  · rw [createTypingString, createTypingStringAux_eq]
    simp
  · simp [typedStringStep]
  · decide
  · decide
  · simp only [keyboardParse, exC7, kbRec, getAllTypingEvents, typingLoop, enumFrom,
      List.get?, List.drop, (by norm_num : (0:ℚ) - 0 < 91/100)]
    decide

theorem typingLoop_eq_gapChain (l : List (Nat × Rec)) :
    ∀ t : ℚ, typingLoop l t = gapChain (l.filter isKeyDown) t := by
  induction l with
  | nil => intro t; rfl
  | cons p rest ih =>
    obtain ⟨i, e⟩ := p
    intro t
    rw [typingLoop]
    by_cases h1 : e.name = "KeyboardEvent"
    · by_cases h2 : e.data.eventName = some "DOWN"
      · rw [if_pos h1, if_pos h2]
        have hkd : isKeyDown (i, e) = true := by simp [isKeyDown, h1, h2]
        simp [List.filter_cons, hkd, gapChain, ih]
      · rw [if_pos h1, if_neg h2]
        have hkd : isKeyDown (i, e) = false := by simp [isKeyDown, h2]
        simp [List.filter_cons, hkd, ih]
    · rw [if_neg h1]
      have hkd : isKeyDown (i, e) = false := by simp [isKeyDown, h1]
      simp [List.filter_cons, hkd, ih]

/-- C1 (amended): the typing run collected after the cursor is the maximal
prefix of the *key-down subsequence* of the following records in which each
accepted record is within .91s of the previously accepted one; key-release
records and records of non-KeyboardEvent categories are passed over without
ending the collection (the scan ends only at a key-down with gap ≥ .91s or at
the end of the buffer). -/
theorem C1_typing_run_collection (events : List Rec) (index : Nat) (current : Rec)
    (h : events.get? index = some current) :
    getAllTypingEvents events index =
      gapChain ((enumFrom (index + 1) (events.drop (index + 1))).filter isKeyDown)
        current.timestamp := by
  simp only [getAllTypingEvents, h]
  rw [typingLoop_eq_gapChain]

/-- Witness for C1 at a concrete buffer (key-down, MouseEvent, key-down). -/
theorem C1_typing_run_collection_witness :
    getAllTypingEvents exC1.events_ 0 =
      gapChain ((enumFrom 1 (exC1.events_.drop 1)).filter isKeyDown)
        (kbRec 0 "KEY_A" "ha").timestamp :=
  C1_typing_run_collection exC1.events_ 0 (kbRec 0 "KEY_A" "ha") (by decide)

/-- Counterexample to C1 as stated: with a MouseEvent between two key-downs at
gap 0s, the spec's scan (stop at the first non-KeyboardEvent record) collects
nothing, but the code passes over the MouseEvent and collects the later
key-down. -/
theorem C1_counterexample :
    specGetAllTypingEvents exC1.events_ 0 = [] ∧
    getAllTypingEvents exC1.events_ 0 = [(2, kbRec 0 "KEY_B" "hb")] := by
  constructor
  · decide
  · simp only [getAllTypingEvents, exC1, kbRec, mouseMoveRec, typingLoop, enumFrom,
      List.get?, List.drop, (by norm_num : (0:ℚ) - 0 < 91/100)]
    decide

theorem keyboardParse_of_consumed (b : HashBuffer) (index : Nat) (event : Rec)
    (hidx : b.index_ = some index) (hev : b.events_.get? index = some event)
    (hcons : event.consumed = true) :
    keyboardParse b = .ok (none, b) := by
  have hev' : b.events_[index]? = some event := by simpa using hev
  simp [keyboardParse, hidx, hev', hcons]

theorem keyboardParse_of_up (b : HashBuffer) (index : Nat) (event : Rec)
    (hidx : b.index_ = some index) (hev : b.events_.get? index = some event)
    (hup : event.data.eventName = some "UP") :
    keyboardParse b = .ok (none, b) := by
  have hev' : b.events_[index]? = some event := by simpa using hev
  simp [keyboardParse, hidx, hev', hup]

theorem keyboardParse_run_eq (b : HashBuffer) (index : Nat) (event : Rec)
    (hidx : b.index_ = some index) (hev : b.events_.get? index = some event)
    (hcons : event.consumed = false) (hup : ¬ event.data.eventName = some "UP") :
    keyboardParse b =
      match getAllTypingEvents b.events_ index with
      | [] => .ok (none, b)
      | typed =>
        .ok (some [⟨⟨"Keyboard", (createTypingString (((index, event) :: typed).map Prod.snd)).1,
                      "", ""⟩, false,
                    (createTypingString (((index, event) :: typed).map Prod.snd)).2,
                    event.timestamp⟩],
             { b with events_ := consumeAt b.events_ (((index, event) :: typed).map Prod.fst) }) := by
  have hev' : b.events_[index]? = some event := by simpa using hev
  simp [keyboardParse, hidx, hev', hcons, hup]

theorem getAllTypingEvents_mem_lt {events : List Rec} {index : Nat} {p : Nat × Rec}
    (h : p ∈ getAllTypingEvents events index) : p.1 < events.length := by
  rw [getAllTypingEvents] at h
  cases hc : events.get? index with
  | none => rw [hc] at h; simp at h
  | some current =>
    rw [hc] at h
    have h1 := typingLoop_mem h
    have h2 := enumFrom_mem h1
    have h3 : (events.drop (index + 1)).length = events.length - (index + 1) := by simp
    omega

/-- C2 (amended): for an unconsumed key-down at the cursor, the key-entry
policy emits nothing and consumes nothing when the forward scan collects no
follow-up key (in particular for a single key-down with no qualifying
follow-ups); when the scan collects at least one follow-up, it marks every
record of the run (trigger included) consumed and emits exactly one statement,
even when the rendered string is empty. -/
theorem C2_key_entry_emission (b : HashBuffer) (index : Nat) (event : Rec)
    (hidx : b.index_ = some index) (hev : b.events_.get? index = some event)
    (hcons : event.consumed = false) (hname : event.name = "KeyboardEvent")
    (hdown : event.data.eventName = some "DOWN") :
    (getAllTypingEvents b.events_ index = [] → keyboardParse b = .ok (none, b)) ∧
    (getAllTypingEvents b.events_ index ≠ [] →
      ∃ g : GrammarEvent,
        keyboardParse b =
          .ok (some [g], { b with events_ := consumeAt b.events_ (runIndices b.events_ index event) }) ∧
        (∀ j, j ∈ runIndices b.events_ index event →
          ∃ e', (consumeAt b.events_ (runIndices b.events_ index event)).get? j = some e' ∧
            e'.consumed = true)) := by
  have hup : ¬ event.data.eventName = some "UP" := by rw [hdown]; simp
  have hrun := keyboardParse_run_eq b index event hidx hev hcons hup
  constructor
  · intro h0
    rw [hrun, h0]
  · intro hne
    cases ht : getAllTypingEvents b.events_ index with
    | nil => exact absurd ht hne
    | cons t ts =>
      rw [ht] at hrun
      simp only [runIndices, ht]
      refine ⟨_, hrun, ?_⟩
      intro j hj
      have hjlt : j < b.events_.length := by
        have hj2 := hj
        rw [List.mem_map] at hj2
        obtain ⟨p, hp, hpj⟩ := hj2
        rcases List.mem_cons.mp hp with h1 | h2
        · subst h1
          rcases List.get?_eq_some.mp hev with ⟨hl, _⟩
          simp only [← hpj]
          exact hl
        · have h2' : p ∈ getAllTypingEvents b.events_ index := by rw [ht]; exact h2
          have hlt := getAllTypingEvents_mem_lt h2'
          omega
      obtain ⟨e0, he0⟩ : ∃ e0, b.events_.get? j = some e0 := by
        rw [List.get?_eq_get hjlt]; exact ⟨_, rfl⟩
      refine ⟨markConsumed e0, ?_, rfl⟩
      rw [consumeAt_get?, he0]
      simp only [Option.map_some']
      rw [if_pos hj]

/-- Counterexample to C2 as stated: a single unconsumed key-down with a
printable character mapping (KEY_A) yields no statement at all — the policy
returns None and consumes nothing, where the claim demands exactly one
statement. -/
theorem C2_counterexample :
    keyboardParse exC2 = .ok (none, exC2) ∧
    ¬ ∃ (gs : List GrammarEvent) (b' : HashBuffer), keyboardParse exC2 = .ok (some gs, b') := by
  constructor
  · decide
  · intro ⟨gs, b', h⟩
    rw [(by decide : keyboardParse exC2 = .ok (none, exC2))] at h
    simp at h

/-- Witness for C2 at a concrete two-key run. -/
theorem C2_key_entry_emission_witness :
    ∃ g : GrammarEvent,
      keyboardParse exK2 =
        .ok (some [g], { exK2 with events_ := consumeAt exK2.events_ (runIndices exK2.events_ 0 (kbRec 0 "KEY_A" "ha")) }) ∧
      (∀ j, j ∈ runIndices exK2.events_ 0 (kbRec 0 "KEY_A" "ha") →
        ∃ e', (consumeAt exK2.events_ (runIndices exK2.events_ 0 (kbRec 0 "KEY_A" "ha"))).get? j = some e' ∧
          e'.consumed = true) := by
  refine (C2_key_entry_emission exK2 0 (kbRec 0 "KEY_A" "ha") rfl (by decide) (by decide)
    (by decide) (by decide)).2 ?_
  simp only [getAllTypingEvents, exK2, kbRec, typingLoop, enumFrom, List.get?, List.drop,
    (by norm_num : (0:ℚ) - 0 < 91/100)]
  decide

/-- C8: once a key-entry run has completed (the policy emitted a statement,
marking the whole run consumed), dispatching the key-entry policy again with
the cursor at any record of that run produces no statement and leaves the
buffer unchanged — so a second pass over the same range emits nothing more
from the consumed records. -/
theorem C8_consumption_idempotence (b b' : HashBuffer) (index : Nat) (event : Rec)
    (gs : List GrammarEvent)
    (hidx : b.index_ = some index) (hev : b.events_.get? index = some event)
    (hparse : keyboardParse b = .ok (some gs, b'))
    (j : Nat) (hj : j ∈ runIndices b.events_ index event) :
    keyboardParse { b' with index_ := some j } =
      .ok (none, { b' with index_ := some j }) := by
  by_cases hcons : event.consumed = true
  · rw [keyboardParse_of_consumed b index event hidx hev hcons] at hparse
    simp at hparse
  · have hcons' : event.consumed = false := by simpa using hcons
    by_cases hup : event.data.eventName = some "UP"
    · rw [keyboardParse_of_up b index event hidx hev hup] at hparse
      simp at hparse
    · have hrun := keyboardParse_run_eq b index event hidx hev hcons' hup
      rw [hrun] at hparse
      cases ht : getAllTypingEvents b.events_ index with
      | nil =>
        rw [ht] at hparse
        simp at hparse
      | cons t ts =>
        rw [ht] at hparse
        simp only [Except.ok.injEq, Prod.mk.injEq] at hparse
        obtain ⟨hgs, hb'⟩ := hparse
        have hjlt : j < b.events_.length := by
          have hj2 := hj
          rw [runIndices, ht, List.mem_map] at hj2
          obtain ⟨p, hp, hpj⟩ := hj2
          rcases List.mem_cons.mp hp with h1 | h2
          · subst h1
            rcases List.get?_eq_some.mp hev with ⟨hl, _⟩
            simp only [← hpj]
            exact hl
          · have h2' : p ∈ getAllTypingEvents b.events_ index := by rw [ht]; exact h2
            have hlt := getAllTypingEvents_mem_lt h2'
            omega
        obtain ⟨e0, he0⟩ : ∃ e0, b.events_.get? j = some e0 := by
          rw [List.get?_eq_get hjlt]; exact ⟨_, rfl⟩
        have hj' : j ∈ List.map Prod.fst ((index, event) :: t :: ts) := by
          have hj2 := hj
          rw [runIndices, ht] at hj2
          exact hj2
        have hget : ({ b' with index_ := some j } : HashBuffer).events_.get? j
            = some (markConsumed e0) := by
          rw [← hb']
          show (consumeAt b.events_ (List.map Prod.fst ((index, event) :: t :: ts))).get? j
            = some (markConsumed e0)
          rw [consumeAt_get?, he0]
          simp only [Option.map_some']
          rw [if_pos hj']
        exact keyboardParse_of_consumed _ j (markConsumed e0) rfl hget rfl

/-- Witness for C8: after the two-key run at `exK2` completes, re-dispatching
with the cursor on the second run record yields nothing. -/
theorem C8_consumption_idempotence_witness :
    keyboardParse { exK2 with
        events_ := [markConsumed (kbRec 0 "KEY_A" "ha"), markConsumed (kbRec 0 "KEY_B" "hb")],
        index_ := some 1 } =
      .ok (none, { exK2 with
        events_ := [markConsumed (kbRec 0 "KEY_A" "ha"), markConsumed (kbRec 0 "KEY_B" "hb")],
        index_ := some 1 }) := by
  have hparse : keyboardParse exK2 =
      .ok (some [⟨⟨"Keyboard", "ab", "", ""⟩, false, ["ha", "hb"], 0⟩],
        { exK2 with events_ := [markConsumed (kbRec 0 "KEY_A" "ha"),
                                markConsumed (kbRec 0 "KEY_B" "hb")] }) := by
    simp only [keyboardParse, exK2, kbRec, getAllTypingEvents, typingLoop, enumFrom,
      List.get?, List.drop, (by norm_num : (0:ℚ) - 0 < 91/100)]
    decide
  have hj : (1 : Nat) ∈ runIndices exK2.events_ 0 (kbRec 0 "KEY_A" "ha") := by
    simp only [runIndices, getAllTypingEvents, exK2, kbRec, typingLoop, enumFrom, List.get?,
      List.drop, (by norm_num : (0:ℚ) - 0 < 91/100)]
    decide
  exact C8_consumption_idempotence exK2 _ 0 (kbRec 0 "KEY_A" "ha") _ rfl (by decide) hparse 1 hj

/-- C3 (amended): for an unconsumed scrollbar record at the cursor, the scan
consumes the qualifying same-source follow-ups; when fewer than 2 follow-ups
were consumed — in particular for a run of 1 record and also for a run of
exactly 2 records — nothing is emitted (the consumed follow-ups stay
consumed); when 2 or more follow-ups were consumed (a run of 3+ records),
exactly 4 inferred statements are emitted, all sharing one provenance list
made of the trigger's hash followed by the hashes of every consumed record. -/
theorem C3_scrollbar_run_cardinality (b : HashBuffer) (index : Nat) (event : Rec)
    (hidx : b.index_ = some index) (hev : b.events_.get? index = some event)
    (hcons : event.consumed = false) (plug : String)
    (hplug : pluginLookup event.data.eventSource = some plug) :
    ((consumeScrollEvents b.events_ index event).2.length < 2 →
      vsbParse b =
        .ok (none, { b with events_ := consumeAt b.events_ ((consumeScrollEvents b.events_ index event).2.map Prod.fst) })) ∧
    (2 ≤ (consumeScrollEvents b.events_ index event).2.length →
      ∃ gs : List GrammarEvent,
        vsbParse b =
          .ok (some gs, { b with events_ := consumeAt b.events_ ((consumeScrollEvents b.events_ index event).2.map Prod.fst) }) ∧
        gs.length = 4 ∧
        (∀ g ∈ gs, g.inferred = true ∧
          g.hashList = event.hash ::
            (consumeScrollEvents b.events_ index event).2.map (fun p => p.2.hash))) := by
  have hev' : b.events_[index]? = some event := by simpa using hev
  constructor
  · intro hlt
    have hlt' : ((consumeScrollEvents b.events_ index event).2.map
        (fun p => p.2.hash)).length < 2 := by
      rw [List.length_map]; exact hlt
    simp [vsbParse, hidx, hev', hcons, hlt']
    intro hge
    exact absurd hge (by omega)
  · intro hge
    have hge' : ¬ (((consumeScrollEvents b.events_ index event).2.map
        (fun p => p.2.hash)).length < 2) := by
      rw [List.length_map]; omega
    refine ⟨generateInferredScrollStatements event
        (plug ++ " : " ++ "ScrollbarLocation" ++ "[" ++
          strOfOptInt event.data.scrollbarLocation ++ "]")
        (plug ++ " : " ++ ("ScrollbarLocation" ++ "[" ++
          strOfOptInt (consumeScrollEvents b.events_ index event).1.data.scrollbarLocation ++ "]"))
        (event.hash :: (consumeScrollEvents b.events_ index event).2.map (fun p => p.2.hash)),
      ?_, ?_, ?_⟩
    · simp [vsbParse, hidx, hev', hcons, hge', hplug]
      exact hge
    · simp [generateInferredScrollStatements]
    · intro g hg
      simp only [generateInferredScrollStatements, List.mem_cons, List.mem_singleton,
        List.not_mem_nil, or_false] at hg
      rcases hg with h | h | h | h <;> subst h <;> exact ⟨rfl, rfl⟩

/-- Counterexample to C3 as stated: a run of exactly 2 qualifying same-source
scrollbar records (gap 1s < 5s) yields zero statements, where the claim
demands exactly 4 inferred statements; the single follow-up is nevertheless
marked consumed. -/
theorem C3_counterexample :
    vsbParse exC3 = .ok (none,
      { exC3 with events_ := [vsRec 0 "CavaDecompilePlugin" 10 "h0",
                              markConsumed (vsRec 1 "CavaDecompilePlugin" 20 "h1")] }) ∧
    ¬ ∃ (gs : List GrammarEvent) (b' : HashBuffer), vsbParse exC3 = .ok (some gs, b') := by
  have heval : vsbParse exC3 = .ok (none,
      { exC3 with events_ := [vsRec 0 "CavaDecompilePlugin" 10 "h0",
                              markConsumed (vsRec 1 "CavaDecompilePlugin" 20 "h1")] }) := by
    simp only [vsbParse, exC3, vsRec, consumeScrollEvents, scrollLoop, enumFrom,
      List.get?, List.drop, (by norm_num : (1:ℚ) - 0 < 5)]
    decide
  refine ⟨heval, ?_⟩
  intro ⟨gs, b', h⟩
  rw [heval] at h
  simp at h

/-- Witness for C3 at a 3-record same-source run: the discard branch does not
fire and exactly 4 inferred statements with shared provenance are emitted. -/
theorem C3_scrollbar_run_cardinality_witness :
    ∃ gs : List GrammarEvent,
      vsbParse exC3w =
        .ok (some gs, { exC3w with events_ := consumeAt exC3w.events_ ((consumeScrollEvents exC3w.events_ 0 (vsRec 0 "CavaDecompilePlugin" 10 "h0")).2.map Prod.fst) }) ∧
      gs.length = 4 ∧
      (∀ g ∈ gs, g.inferred = true ∧
        g.hashList = (vsRec 0 "CavaDecompilePlugin" 10 "h0").hash ::
          (consumeScrollEvents exC3w.events_ 0 (vsRec 0 "CavaDecompilePlugin" 10 "h0")).2.map (fun p => p.2.hash)) := by
  refine (C3_scrollbar_run_cardinality exC3w 0 (vsRec 0 "CavaDecompilePlugin" 10 "h0") rfl
    (by decide) (by decide) "Decompiler" (by decide)).2 ?_
  simp only [consumeScrollEvents, exC3w, vsRec, scrollLoop, enumFrom, List.get?, List.drop,
    (by norm_num : (1:ℚ) - 0 < 5), (by norm_num : (2:ℚ) - 1 < 5)]
  decide

theorem string_length_zero_eq_empty (b : String) (h : b.length = 0) : b = "" := by
  cases b with
  | mk data =>
    cases data with
    | nil => rfl
    | cons c cs => simp [String.length] at h

theorem string_append_ne_empty_right (a b : String) (hb : b ≠ "") : a ++ b ≠ "" := by
  intro h
  apply hb
  have hl := congrArg String.length h
  rw [String.length_append] at hl
  simp at hl
  exact string_length_zero_eq_empty b hl.2

theorem string_append_ne_empty_left (a b : String) (ha : a ≠ "") : a ++ b ≠ "" := by
  intro h
  apply ha
  have hl := congrArg String.length h
  rw [String.length_append] at hl
  simp at hl
  exact string_length_zero_eq_empty a hl.1

/-- C4 (amended): a right-button popup-triggering MousePressedEvent yields
exactly three statements — the observed click plus the inferred set-comment and
relabel follow-ups; the two inferred statements share the provenance list
holding only the trigger's hash, while the observed statement's provenance
additionally carries the companion FieldLocationEvent's hash (the empty string
when no companion was found), so the three do not all share one provenance
set. -/
theorem C4_mouse_press_popup (b : HashBuffer) (index : Nat) (event : Rec)
    (hidx : b.index_ = some index) (hev : b.events_.get? index = some event)
    (hb1 : event.data.mouseButton ≠ some 1) (hb2 : event.data.mouseButton ≠ some 2)
    (hpop : event.data.isPopupTrigger = some true)
    (plug : String) (hplug : pluginLookup event.data.eventSource = some plug)
    (field : String)
    (hfield : (getFieldFromPlugin (loadFieldLocationEvents b.events_ index event)
      event.data.eventSource).1 = some field) :
    ∃ core cmt rel : GrammarEvent,
      mousePressedParse b = .ok (some [core, cmt, rel], b) ∧
      core.inferred = false ∧ cmt.inferred = true ∧ rel.inferred = true ∧
      cmt.hashList = [event.hash] ∧ rel.hashList = [event.hash] ∧
      core.hashList = [event.hash,
        (getFieldFromPlugin (loadFieldLocationEvents b.events_ index event)
          event.data.eventSource).2] := by
  have hev' : b.events_[index]? = some event := by simpa using hev
  have hct : ¬ (plug ++ " : Field(" ++ field ++ ")" = "") := by
    apply string_append_ne_empty_right
    decide
  have hta : plug ++ " : Field(" ++ field ++ ") : " ++ "Context Menu" ≠ "" := by
    apply string_append_ne_empty_right
    decide
  refine ⟨⟨⟨"Mouse", "Right" ++ " " ++ (if event.data.clickCount = some 1 then "Click"
        else if event.data.clickCount = some 2 then "DoubleClick" else "MultipleClicks"),
      plug ++ " : Field(" ++ field ++ ")",
      plug ++ " : Field(" ++ field ++ ") : " ++ "Context Menu"⟩, false,
      [event.hash, (getFieldFromPlugin (loadFieldLocationEvents b.events_ index event) event.data.eventSource).2],
      event.timestamp⟩,
    ⟨⟨"Mouse", "Left Click",
      plug ++ " : Field(" ++ field ++ ") : " ++ "Context Menu" ++ " : " ++ "Set Comment...",
      "Open(CommentPlugin)"⟩, true, [event.hash], event.timestamp⟩,
    ⟨⟨"Mouse", "Left Click",
      plug ++ " : Field(" ++ field ++ ") : " ++ "Context Menu" ++ " : " ++ "relabel",
      "Open(RelabelPlugin)"⟩, true, [event.hash], event.timestamp⟩,
    ?_, rfl, rfl, rfl, rfl, rfl, rfl⟩
  simp [mousePressedParse, hidx, hev', hb1, hb2, hpop, hplug, hfield,
    generateInferredRightClickEvents, hct, hta]

/-- Counterexample to C4 as stated: at a popup-triggering right click with no
companion FieldLocationEvent, the observed statement's provenance is
[trigger hash, ""] while both inferred statements carry [trigger hash] — the
three statements do not all share one provenance hash set. -/
theorem C4_counterexample :
    hashListsOf (mousePressedParse exC4) = some [["h1", ""], ["h1"], ["h1"]] ∧
    (["h1", ""] : List String) ≠ ["h1"] := by
  constructor
  · decide
  · decide

/-- Witness for C4 at the concrete popup buffer. -/
theorem C4_mouse_press_popup_witness :
    ∃ core cmt rel : GrammarEvent,
      mousePressedParse exC4 = .ok (some [core, cmt, rel], exC4) ∧
      core.inferred = false ∧ cmt.inferred = true ∧ rel.inferred = true ∧
      cmt.hashList = [(mpRec 0 "h1").hash] ∧ rel.hashList = [(mpRec 0 "h1").hash] ∧
      core.hashList = [(mpRec 0 "h1").hash,
        (getFieldFromPlugin (loadFieldLocationEvents exC4.events_ 0 (mpRec 0 "h1"))
          (mpRec 0 "h1").data.eventSource).2] :=
  C4_mouse_press_popup exC4 0 (mpRec 0 "h1") rfl (by decide) (by decide) (by decide) (by decide)
    "Decompiler" (by decide) "*(unknown)" (by decide)

theorem inputFragLoop_none (src : ℚ) :
    ∀ l : List Rec,
      (∀ e ∈ l, e.name = "MouseEvent" → e.data.eventName = some "CLICK" →
        ¬ (src - e.timestamp ≤ 1)) →
      inputFragLoop l src = .ok none := by
  intro l
  induction l with
  | nil => intro _; rfl
  | cons e rest ih =>
    intro h
    rw [inputFragLoop]
    by_cases h1 : e.name = "MouseEvent"
    · rw [if_pos h1]
      by_cases h2 : src - e.timestamp > 1
      · rw [if_pos h2]
      · rw [if_neg h2]
        have hle : src - e.timestamp ≤ 1 := by linarith [not_lt.mp h2]
        by_cases h3 : e.data.eventName = some "CLICK"
        · exact absurd hle (h e (List.mem_cons_self _ _) h1 h3)
        · rw [if_neg h3]
          exact ih (fun e' he' => h e' (List.mem_cons_of_mem _ he'))
    · rw [if_neg h1]
      exact ih (fun e' he' => h e' (List.mem_cons_of_mem _ he'))

theorem inputFragLoop_finds (src : ℚ) :
    ∀ l : List Rec,
      l.Pairwise (fun a c => c.timestamp ≤ a.timestamp) →
      (∀ e ∈ l, e.name = "MouseEvent" → e.data.eventName = some "CLICK" →
        e.data.button.isSome = true) →
      (∃ e ∈ l, e.name = "MouseEvent" ∧ e.data.eventName = some "CLICK" ∧
        src - e.timestamp ≤ 1) →
      ∃ frags, inputFragLoop l src = .ok (some frags) := by
  intro l
  induction l with
  | nil => intro _ _ hex; simp at hex
  | cons e rest ih =>
    intro hsorted hwf hex
    rw [inputFragLoop]
    by_cases h1 : e.name = "MouseEvent"
    · rw [if_pos h1]
      by_cases h2 : src - e.timestamp > 1
      · exfalso
        obtain ⟨c, hc, hcm, hcc, hct⟩ := hex
        rcases List.mem_cons.mp hc with hce | hcr
        · subst hce
          linarith
        · have hts : c.timestamp ≤ e.timestamp :=
            (List.pairwise_cons.mp hsorted).1 c hcr
          linarith
      · rw [if_neg h2]
        by_cases h3 : e.data.eventName = some "CLICK"
        · rw [if_pos h3]
          have hb := hwf e (List.mem_cons_self _ _) h1 h3
          obtain ⟨bs, hbs⟩ := Option.isSome_iff_exists.mp hb
          rw [hbs]
          exact ⟨_, rfl⟩
        · rw [if_neg h3]
          obtain ⟨c, hc, hcm, hcc, hct⟩ := hex
          have hcr : c ∈ rest := by
            rcases List.mem_cons.mp hc with hce | hcr
            · exact absurd (hce ▸ hcc) h3
            · exact hcr
          exact ih (List.pairwise_cons.mp hsorted).2
            (fun e' he' => hwf e' (List.mem_cons_of_mem _ he'))
            ⟨c, hcr, hcm, hcc, hct⟩
    · rw [if_neg h1]
      obtain ⟨c, hc, hcm, hcc, hct⟩ := hex
      have hcr : c ∈ rest := by
        rcases List.mem_cons.mp hc with hce | hcr
        · exact absurd (hce ▸ hcm) h1
        · exact hcr
      exact ih (List.pairwise_cons.mp hsorted).2
        (fun e' he' => hwf e' (List.mem_cons_of_mem _ he'))
        ⟨c, hcr, hcm, hcc, hct⟩

/-- C5: for a GhidraProgramActivatedEvent carrying a program name, with the
records before the cursor time-ordered: if some CLICK MouseEvent at most 1s
older exists before the cursor, the policy emits exactly 1 non-inferred
statement borrowing the found click's device/action fragments and its hash;
if no such click exists within 1s, it emits exactly 2 inferred alternatives
(one assuming left click, one assuming middle click). -/
theorem C5_program_activation_alternatives (b : HashBuffer) (index : Nat) (event : Rec)
    (pn : String)
    (hidx : b.index_ = some index) (hev : b.events_.get? index = some event)
    (hpn : event.data.programName = some pn)
    (hsorted : (b.events_.take index).Pairwise (fun a c => a.timestamp ≤ c.timestamp))
    (hwf : ∀ e ∈ b.events_.take index, e.name = "MouseEvent" →
      e.data.eventName = some "CLICK" → e.data.button.isSome = true) :
    ((∃ e ∈ b.events_.take index, e.name = "MouseEvent" ∧
        e.data.eventName = some "CLICK" ∧ event.timestamp - e.timestamp ≤ 1) →
      ∃ frags g, getInputFragments b.events_ index event.timestamp = .ok (some frags) ∧
        gpaParse b = .ok (some [g], b) ∧ g.inferred = false ∧
        g.sentence.inputDevice = frags.1 ∧ g.sentence.inputAction = frags.2.1 ∧
        g.hashList = event.hash :: frags.2.2) ∧
    ((∀ e ∈ b.events_.take index, e.name = "MouseEvent" →
        e.data.eventName = some "CLICK" → ¬ (event.timestamp - e.timestamp ≤ 1)) →
      gpaParse b = .ok (some (inferredProgramActivatedEvents event pn), b) ∧
      (inferredProgramActivatedEvents event pn).length = 2 ∧
      ∀ g ∈ inferredProgramActivatedEvents event pn, g.inferred = true) := by
  have hev' : b.events_[index]? = some event := by simpa using hev
  constructor
  · intro hex
    have hrev : ((b.events_.take index).reverse).Pairwise
        (fun a c => c.timestamp ≤ a.timestamp) := by
      rw [List.pairwise_reverse]
      exact hsorted
    obtain ⟨frags, hfr⟩ := inputFragLoop_finds event.timestamp
      ((b.events_.take index).reverse) hrev
      (fun e he => hwf e (List.mem_reverse.mp he))
      (by
        obtain ⟨c, hc, h1, h2, h3⟩ := hex
        exact ⟨c, List.mem_reverse.mpr hc, h1, h2, h3⟩)
    have hgif : getInputFragments b.events_ index event.timestamp = .ok (some frags) := hfr
    refine ⟨frags,
      ⟨⟨frags.1, frags.2.1,
        "CodeBrowser" ++ " : " ++ " ProgramTab(" ++ "\"" ++ pn ++ "\"" ++ ")",
        "Ghidra load \"" ++ pn ++ "\""⟩, false, event.hash :: frags.2.2, event.timestamp⟩,
      hgif, ?_, rfl, rfl, rfl, rfl⟩
    simp [gpaParse, hidx, hev', hpn, hgif]
  · intro hnone
    have hgif : getInputFragments b.events_ index event.timestamp = .ok none := by
      apply inputFragLoop_none
      intro e he
      exact hnone e (List.mem_reverse.mp he)
    refine ⟨?_, rfl, ?_⟩
    · simp [gpaParse, hidx, hev', hpn, hgif]
    · intro g hg
      simp only [inferredProgramActivatedEvents, List.mem_cons, List.not_mem_nil,
        or_false, List.mem_singleton] at hg
      rcases hg with h | h <;> subst h <;> rfl

/-- Witness for C5: with a click 1s before the activation exactly one
non-inferred statement is emitted; with the click 2s before, the two inferred
alternatives are emitted. -/
theorem C5_program_activation_alternatives_witness :
    (∃ frags g, getInputFragments exC5a.events_ 1 (gpaRec 1 "prog" "hp").timestamp
        = .ok (some frags) ∧
      gpaParse exC5a = .ok (some [g], exC5a) ∧ g.inferred = false ∧
      g.sentence.inputDevice = frags.1 ∧ g.sentence.inputAction = frags.2.1 ∧
      g.hashList = (gpaRec 1 "prog" "hp").hash :: frags.2.2) ∧
    (gpaParse exC5b =
        .ok (some (inferredProgramActivatedEvents (gpaRec 2 "prog" "hp") "prog"), exC5b) ∧
      (inferredProgramActivatedEvents (gpaRec 2 "prog" "hp") "prog").length = 2 ∧
      ∀ g ∈ inferredProgramActivatedEvents (gpaRec 2 "prog" "hp") "prog",
        g.inferred = true) := by
  constructor
  · refine (C5_program_activation_alternatives exC5a 1 (gpaRec 1 "prog" "hp") "prog"
      rfl (by decide) (by decide) ?_ ?_).1 ?_
    · simp [exC5a, mouseClickRec, gpaRec]
    · intro e he
      simp only [exC5a, List.take_succ_cons, List.take_zero, List.mem_singleton] at he
      subst he
      intro _ _
      decide
    · refine ⟨mouseClickRec 0 "hc", ?_, by decide, by decide, ?_⟩
      · simp [exC5a]
      · show (gpaRec 1 "prog" "hp").timestamp - (mouseClickRec 0 "hc").timestamp ≤ 1
        show (1 : ℚ) - 0 ≤ 1
        norm_num
  · refine (C5_program_activation_alternatives exC5b 1 (gpaRec 2 "prog" "hp") "prog"
      rfl (by decide) (by decide) ?_ ?_).2 ?_
    · simp [exC5b, mouseClickRec, gpaRec]
    · intro e he
      simp only [exC5b, List.take_succ_cons, List.take_zero, List.mem_singleton] at he
      subst he
      intro _ _
      decide
    · intro e he
      simp only [exC5b, List.take_succ_cons, List.take_zero, List.mem_singleton] at he
      subst he
      intro _ _
      show ¬ ((gpaRec 2 "prog" "hp").timestamp - (mouseClickRec 0 "hc").timestamp ≤ 1)
      show ¬ ((2 : ℚ) - 0 ≤ 1)
      norm_num

/-- Witness for C7 at the a, BACKSPACE, b run. -/
theorem C7_backspace_rendering_witness :
    createTypingString [kbRec 0 "KEY_A" "ha", kbRec 0 "KEY_BACKSPACE" "hx",
        kbRec 0 "KEY_B" "hb"] =
      ([kbRec 0 "KEY_A" "ha", kbRec 0 "KEY_BACKSPACE" "hx", kbRec 0 "KEY_B" "hb"].foldl
        (fun acc e => typedStringStep acc e.data.key) "",
       [kbRec 0 "KEY_A" "ha", kbRec 0 "KEY_BACKSPACE" "hx", kbRec 0 "KEY_B" "hb"].map
         Rec.hash) :=
  C7_backspace_rendering.1 _
